import Mathlib

/-!
Shallow embedding of the `evm-rs-study` virtual machine (src/state.rs, src/stack.rs,
src/mem.rs, src/instructions.rs, src/vm.rs, src/asm.rs) and proofs checking the
specification's claims against it.

Conventions:
* 256-bit `U256` values are naturals; operations that wrap in the source take the
  result `% 2 ^ 256`.  Addresses are naturals below `2 ^ 160`.
* Rust `HashMap`s are association lists with unique keys (`mapInsert` erases the
  old binding); lookup order mirrors the source's probing order.
* A Rust panic (index out of bounds, `unwrap` on `None`, division by zero in
  `wrapping_div`) is modelled as `Option.none`; a returned `Result::Err` is an
  `Except.error`.
* Code of the repository that is not among the provided sources (the `opcode` and
  `i256` modules) is modelled from the spec; each such definition says so in its
  doc comment.
-/

set_option maxRecDepth 8000

namespace EvmRs

/-- The modulus of 256-bit machine words. -/
def wordSize : Nat := 2 ^ 256

abbrev Word := Nat
abbrev Addr := Nat

/-- Error type of src/error.rs (`EVMError`). -/
inductive EVMError where
  | insufficientBalance
  | invalidJumpDestination
  | revert
  | invalidOpcode (op : Nat)
  | stop
  | invalidAsmToken (tok : List Char)
  deriving DecidableEq, Repr

/-! ## Association-list maps (standing for the source's `HashMap`s) -/

def mapLookup {κ ν : Type} [DecidableEq κ] (k : κ) : List (κ × ν) → Option ν
  | [] => none
  | (k', v) :: t => if k = k' then some v else mapLookup k t

def mapErase {κ ν : Type} [DecidableEq κ] (k : κ) : List (κ × ν) → List (κ × ν)
  | [] => []
  | (k', v) :: t => if k = k' then mapErase k t else (k', v) :: mapErase k t

/-- `HashMap::insert`: the new binding replaces any old one. -/
def mapInsert {κ ν : Type} [DecidableEq κ] (k : κ) (v : ν) (m : List (κ × ν)) :
    List (κ × ν) :=
  (k, v) :: mapErase k m

theorem mapLookup_insert_self {κ ν : Type} [DecidableEq κ] (k : κ) (v : ν)
    (m : List (κ × ν)) : mapLookup k (mapInsert k v m) = some v := by
  simp [mapInsert, mapLookup]

/-! ## StateDB (src/state.rs) -/

/-- `StateObject` of src/state.rs. -/
structure StateObject where
  balance : Word
  nonce : Nat
  code : List Nat
  code_hash : Word
  address : Addr
  deriving DecidableEq, Repr

/-- `StateObject::new_with_address`. -/
def StateObject.new_with_address (address : Addr) : StateObject :=
  { balance := 0, nonce := 0, code := [], code_hash := 0, address := address }

/-- `InMemoryStateDB` of src/state.rs. -/
structure InMemoryStateDB where
  objects : List (Addr × StateObject)
  storage : List ((Addr × Word) × Word)
  dirty_storage : List ((Addr × Word) × Word)
  dirty_objects : List (Addr × StateObject)
  transition_storage : List ((Addr × Word) × Word)
  logs : List (Addr × List Word × List Nat)
  deriving DecidableEq, Repr

namespace InMemoryStateDB

/-- `InMemoryStateDB::new`. -/
def new : InMemoryStateDB :=
  { objects := [], storage := [], dirty_storage := [], dirty_objects := [],
    transition_storage := [], logs := [] }

/-- `get_object`: the dirty overlay is probed before the committed map. -/
def get_object (db : InMemoryStateDB) (address : Addr) : Option StateObject :=
  match mapLookup address db.dirty_objects with
  | some account => some account
  | none => mapLookup address db.objects

/-- `set_account`: inserts into the dirty overlay. -/
def set_account (db : InMemoryStateDB) (address : Addr) (account : StateObject) :
    InMemoryStateDB :=
  { db with dirty_objects := mapInsert address account db.dirty_objects }

/-- `sub_balance`, with `get_object_mut` inlined: the mutable lookup probes
`dirty_objects` first and otherwise falls through to a mutable reference into the
committed `objects` map, so the balance write lands in whichever map held the
account. -/
def sub_balance (db : InMemoryStateDB) (address : Addr) (value : Word) :
    Except EVMError (Word × InMemoryStateDB) :=
  match mapLookup address db.dirty_objects with
  | some account =>
      if account.balance < value then .error .insufficientBalance
      else .ok (account.balance,
        { db with dirty_objects :=
            (mapInsert address ({ account with balance := account.balance - value })
              db.dirty_objects) })
  | none =>
    match mapLookup address db.objects with
    | some account =>
        if account.balance < value then .error .insufficientBalance
        else .ok (account.balance,
          { db with objects :=
              (mapInsert address ({ account with balance := account.balance - value })
                db.objects) })
    | none =>
        if value = 0 then .ok (0, db) else .error .insufficientBalance

/-- `add_balance`, with `get_object_mut_or_create` inlined: an existing account is
mutated where it lives (dirty overlay first, else directly in the committed map);
a missing account is created in the dirty overlay and credited there.  The `+=`
wraps at 256 bits. -/
def add_balance (db : InMemoryStateDB) (address : Addr) (value : Word) :
    Word × InMemoryStateDB :=
  match mapLookup address db.dirty_objects with
  | some account =>
      (account.balance,
        { db with dirty_objects :=
            (mapInsert address
              ({ account with balance := (account.balance + value) % wordSize })
              db.dirty_objects) })
  | none =>
    match mapLookup address db.objects with
    | some account =>
        (account.balance,
          { db with objects :=
              (mapInsert address
                ({ account with balance := (account.balance + value) % wordSize })
                db.objects) })
    | none =>
        (0,
          { db with dirty_objects :=
              (mapInsert address
                ({ StateObject.new_with_address address with balance := value % wordSize })
                db.dirty_objects) })

/-- `transfer`: `sub_balance` then `add_balance`; the debit's error propagates
before any credit happens. -/
def transfer (db : InMemoryStateDB) (from_ to_ : Addr) (value : Word) :
    Except EVMError InMemoryStateDB :=
  match db.sub_balance from_ value with
  | .error e => .error e
  | .ok (_, db') => .ok (db'.add_balance to_ value).2

/-- `get_balance`. -/
def get_balance (db : InMemoryStateDB) (address : Addr) : Word :=
  match db.get_object address with
  | some account => account.balance
  | none => 0

/-- `get_nonce`. -/
def get_nonce (db : InMemoryStateDB) (address : Addr) : Nat :=
  match db.get_object address with
  | some account => account.nonce
  | none => 0

/-- `get_code`. -/
def get_code (db : InMemoryStateDB) (address : Addr) : List Nat :=
  match db.get_object address with
  | some account => account.code
  | none => []

/-- `get_state`: the dirty overlay is read before the committed map; absent slots
read as zero. -/
def get_state (db : InMemoryStateDB) (address : Addr) (slot : Word) : Word :=
  match mapLookup (address, slot) db.dirty_storage with
  | some value => value
  | none =>
    match mapLookup (address, slot) db.storage with
    | some value => value
    | none => 0

/-- `set_state`: writes go to the dirty overlay only. -/
def set_state (db : InMemoryStateDB) (address : Addr) (slot : Word) (value : Word) :
    InMemoryStateDB :=
  { db with dirty_storage := mapInsert (address, slot) value db.dirty_storage }

/-- `prepare`: clears the two dirty overlays and the transient storage. -/
def prepare (db : InMemoryStateDB) : InMemoryStateDB :=
  { db with dirty_storage := [], dirty_objects := [], transition_storage := [] }

/-- `commit`: folds the dirty overlays into the committed maps, then clears them
and also clears the transient storage. -/
def commit (db : InMemoryStateDB) : InMemoryStateDB :=
  { db with
    storage := db.dirty_storage.foldl (fun acc kv => mapInsert kv.1 kv.2 acc) db.storage,
    objects := db.dirty_objects.foldl (fun acc kv => mapInsert kv.1 kv.2 acc) db.objects,
    dirty_storage := [],
    dirty_objects := [],
    transition_storage := [] }

/-- `get_transition_state` (the source's name for the transient-storage read). -/
def get_transition_state (db : InMemoryStateDB) (address : Addr) (slot : Word) : Word :=
  match mapLookup (address, slot) db.transition_storage with
  | some value => value
  | none => 0

/-- `set_transition_state`. -/
def set_transition_state (db : InMemoryStateDB) (address : Addr) (slot : Word)
    (value : Word) : InMemoryStateDB :=
  { db with transition_storage := mapInsert (address, slot) value db.transition_storage }

end InMemoryStateDB

/-! ## Claim C1 -/

/-- C1: `set_state(a,k,v)` followed by `get_state(a,k)` with no intervening
`prepare` returns `v`; after a further `prepare` (and no `commit`) `get_state`
returns the previously committed value for `(a,k)`, zero if that slot was never
committed. -/
theorem c1_getState_setState_prepare (db : InMemoryStateDB) (a : Addr) (k v : Word) :
    (db.set_state a k v).get_state a k = v ∧
    ((db.set_state a k v).prepare).get_state a k =
      (mapLookup (a, k) db.storage).getD 0 := by
  constructor
  · simp [InMemoryStateDB.get_state, InMemoryStateDB.set_state, mapLookup_insert_self]
  · simp only [InMemoryStateDB.get_state, InMemoryStateDB.set_state,
      InMemoryStateDB.prepare, mapLookup]
    cases mapLookup (a, k) db.storage <;> simp

/-! ## Claim C2 -/

/-- A committed-only account at address 1 with balance 5 (claim C2's scenario). -/
def dbC2 : InMemoryStateDB :=
  { InMemoryStateDB.new with
    objects := [(1, { balance := 5, nonce := 0, code := [], code_hash := 0, address := 1 })] }

/-- The same database after the write-through debit of 3. -/
def dbC2' : InMemoryStateDB :=
  { InMemoryStateDB.new with
    objects := [(1, { balance := 2, nonce := 0, code := [], code_hash := 0, address := 1 })] }

/-- C2 fails on the code: for an account that lives only in the committed
`objects` map, `sub_balance` after a `prepare` mutates the committed balance
directly (`get_object_mut` falls through to `objects`), so a second `prepare`
without `commit` does not roll the mutation back: the balance reads 2, not the
original 5. -/
theorem c2_balance_mutation_writes_through :
    (dbC2.prepare).sub_balance 1 3 = .ok (5, dbC2') ∧
    (dbC2'.prepare).get_balance 1 = 2 := by
  constructor <;> rfl

/-! ## Claim C6 -/

/-- C6 counterexample: after `set_transient_state(1,2,3)`, a `commit` clears the
transient map, so the read returns 0, not the written 3. -/
theorem c6_counterexample :
    ((InMemoryStateDB.new.set_transition_state 1 2 3).commit).get_transition_state 1 2
      = 0 ∧
    (InMemoryStateDB.new.set_transition_state 1 2 3).get_transition_state 1 2 = 3 := by
  constructor <;> rfl

/-- C6 amended: a transient write is visible until the next state-transaction
boundary, but `commit` clears the transient storage (alongside folding the dirty
overlays), so after `commit` every transient slot reads zero. -/
theorem c6_commit_clears_transient (db : InMemoryStateDB) (a : Addr) (k v : Word) :
    (db.set_transition_state a k v).get_transition_state a k = v ∧
    ((db.set_transition_state a k v).commit).transition_storage = [] ∧
    ((db.set_transition_state a k v).commit).get_transition_state a k = 0 := by
  refine ⟨?_, rfl, rfl⟩
  simp [InMemoryStateDB.get_transition_state, InMemoryStateDB.set_transition_state,
    mapLookup_insert_self]

/-! ## Stack (src/stack.rs)

The head of `items` is the top of the source's `Vec` (its last element). -/

structure Stack where
  items : List Word
  deriving DecidableEq, Repr

/-- `Stack::new` (the capacity hint does not bound a `Vec`). -/
def Stack.new : Stack := ⟨[]⟩

/-- `Stack::push`: a plain `Vec::push`, with no depth check. -/
def Stack.push (s : Stack) (value : Word) : Stack := ⟨value :: s.items⟩

/-- `Stack::pop`: `Vec::pop().unwrap()` panics on an empty stack. -/
def Stack.pop (s : Stack) : Option (Word × Stack) :=
  match s.items with
  | [] => none
  | v :: rest => some (v, ⟨rest⟩)

/-- `Stack::pop_n` / the `stack_pop!` macro: `n` sequential pops, top first. -/
def Stack.popN : Nat → Stack → Option (List Word × Stack)
  | 0, s => some ([], s)
  | n + 1, s =>
    match s.pop with
    | none => none
    | some (v, s') =>
      match Stack.popN n s' with
      | none => none
      | some (vs, s'') => some (v :: vs, s'')

/-- `Stack::dup`: reads `stack[len - n]` (panics when `n = 0` or `n > len`) and
pushes it. -/
def Stack.dup (s : Stack) (n : Nat) : Option Stack :=
  if n = 0 then none
  else
    match s.items.get? (n - 1) with
    | none => none
    | some v => some (s.push v)

/-- `Stack::swap`: exchanges `stack[len - 1]` with `stack[len - n - 1]` (panics
when the stack is empty or `n ≥ len`). -/
def Stack.swap (s : Stack) (n : Nat) : Option Stack :=
  match s.items.get? 0, s.items.get? n with
  | some a, some b => some ⟨(s.items.set 0 b).set n a⟩
  | _, _ => none

/-! ## Memory (src/mem.rs) -/

structure Memory where
  memory : List Nat
  deriving DecidableEq, Repr

/-- `Memory::new`. -/
def Memory.new : Memory := ⟨[]⟩

/-- `ensure_capacity`: zero-fill growth to `offset + size` when needed. -/
def Memory.ensure_capacity (m : Memory) (offset size : Nat) : Memory :=
  if offset + size > m.memory.length
  then ⟨m.memory ++ List.replicate (offset + size - m.memory.length) 0⟩
  else m

/-- `Memory::read`: returns the bytes and the (possibly grown) memory. -/
def Memory.read (m : Memory) (offset size : Nat) : List Nat × Memory :=
  if size = 0 then ([], m)
  else
    let m' := m.ensure_capacity offset size
    ((m'.memory.drop offset).take size, m')

/-- `Memory::write`. -/
def Memory.write (m : Memory) (offset : Nat) (value : List Nat) : Memory :=
  if 0 < value.length then
    let m' := m.ensure_capacity offset value.length
    ⟨m'.memory.take offset ++ value ++ m'.memory.drop (offset + value.length)⟩
  else m

/-- `Memory::write_with_size`: `&value[..size]` panics when `size > value.len()`
(which makes the zero-fill branch that follows it in the source unreachable). -/
def Memory.write_with_size (m : Memory) (offset size : Nat) (value : List Nat) :
    Option Memory :=
  let m' := m.ensure_capacity offset size
  if size ≤ value.length then
    some ⟨m'.memory.take offset ++ value.take size ++ m'.memory.drop (offset + size)⟩
  else none

/-- `Memory::copy`, mirroring the source line by line:
`ensure_capacity(max(src, dst), size)`, then `split_at_mut(dst_offset)` (panics
past the end), then `dst_slice[dst_offset .. dst_offset + size]` — a range into
the length-`dst_offset` left half — is written from
`src_slice[src_offset .. src_offset + size]`; either indexing panics when its
range runs past its slice. -/
def Memory.copy (m : Memory) (dst_offset src_offset size : Nat) : Option Memory :=
  let m' := m.ensure_capacity (max src_offset dst_offset) size
  if dst_offset ≤ m'.memory.length then
    let dst_slice := m'.memory.take dst_offset
    let src_slice := m'.memory.drop dst_offset
    if dst_offset + size ≤ dst_slice.length then
      if src_offset + size ≤ src_slice.length then
        some ⟨(dst_slice.take dst_offset
                ++ (src_slice.drop src_offset).take size
                ++ dst_slice.drop (dst_offset + size))
              ++ src_slice⟩
      else none
    else none
  else none

/-! ## u256 helpers (src/u256.rs, duplicated in src/instructions.rs) -/

/-- `u256_to_usize`: the low limb when the value fits in 64 bits, else
`usize::MAX`. -/
def u256_to_usize (value : Word) : Nat :=
  if value < 2 ^ 64 then value else 2 ^ 64 - 1

/-- `u256_to_address`: the low 160 bits of the word. -/
def u256_to_address (value : Word) : Addr := value % 2 ^ 160

/-! ## Opcode bytes and sizes

Modelled from the spec: the repository's `opcode` module is not among the
provided sources.  The byte values are the standard EVM ones the spec's bytecode
format fixes (§6; §8's scenario 4 shows `PUSH2 = 0x61`). -/

/-- Modelled from the spec: opcode byte `STOP`. -/
def STOP : Nat := 0x00
/-- Modelled from the spec: opcode byte `ADD`. -/
def ADD : Nat := 0x01
/-- Modelled from the spec: opcode byte `DIV`. -/
def DIV : Nat := 0x04
/-- Modelled from the spec: opcode byte `SDIV`. -/
def SDIV : Nat := 0x05
/-- Modelled from the spec: opcode byte `MOD`. -/
def MOD : Nat := 0x06
/-- Modelled from the spec: opcode byte `SMOD`. -/
def SMOD : Nat := 0x07
/-- Modelled from the spec: opcode byte `POP`. -/
def POP : Nat := 0x50
/-- Modelled from the spec: opcode byte `SLOAD`. -/
def SLOAD : Nat := 0x54
/-- Modelled from the spec: opcode byte `SSTORE`. -/
def SSTORE : Nat := 0x55
/-- Modelled from the spec: opcode byte `JUMP`. -/
def JUMP : Nat := 0x56
/-- Modelled from the spec: opcode byte `JUMPDEST`. -/
def JUMPDEST : Nat := 0x5B
/-- Modelled from the spec: opcode byte `MCOPY`. -/
def MCOPY : Nat := 0x5E
/-- Modelled from the spec: opcode byte `PUSH0`. -/
def PUSH0 : Nat := 0x5F
/-- Modelled from the spec: opcode byte `PUSH1`. -/
def PUSH1 : Nat := 0x60
/-- Modelled from the spec: opcode byte `PUSH32`. -/
def PUSH32 : Nat := 0x7F
/-- Modelled from the spec: opcode byte `CALL`. -/
def CALL : Nat := 0xF1
/-- Modelled from the spec: opcode byte `RETURN`. -/
def RETURN : Nat := 0xF3
/-- Modelled from the spec: opcode byte `STATICCALL`. -/
def STATICCALL : Nat := 0xFA
/-- Modelled from the spec: opcode byte `REVERT`. -/
def REVERT : Nat := 0xFD

/-- Modelled from the spec (§4.5): `get_opcode_size` of the missing `opcode`
module — `1 + k` bytes for PUSHk, one byte for every other opcode. -/
def get_opcode_size (op : Nat) : Nat :=
  if PUSH1 ≤ op ∧ op ≤ PUSH32 then op - PUSH1 + 2 else 1

/-! ## Signed 256-bit helpers -/

/-- Modelled from the spec (§4.1): the repository's `i256` module is not among
the provided sources.  Two's-complement truncated division: division by zero
yields zero; the most negative value divided by −1 yields itself. -/
def i256_div (a b : Word) : Word :=
  if b = 0 then 0
  else
    let ma := if 2 ^ 255 ≤ a then wordSize - a else a
    let mb := if 2 ^ 255 ≤ b then wordSize - b else b
    let q := ma / mb
    if (2 ^ 255 ≤ a) ≠ (2 ^ 255 ≤ b) then (wordSize - q) % wordSize else q

/-- Modelled from the spec (§4.1): two's-complement remainder, sign following the
dividend; modulus by zero yields zero. -/
def i256_mod (a b : Word) : Word :=
  if b = 0 then 0
  else
    let ma := if 2 ^ 255 ≤ a then wordSize - a else a
    let mb := if 2 ^ 255 ≤ b then wordSize - b else b
    let r := ma % mb
    if 2 ^ 255 ≤ a then (wordSize - r) % wordSize else r

/-- `U256::wrapping_div` (ruint): like Rust's integer `wrapping_div`, it panics
when the divisor is zero. -/
def wrapping_div (a b : Word) : Option Word :=
  if b = 0 then none else some (a / b)

/-- `U256::wrapping_rem` (ruint): panics when the divisor is zero. -/
def wrapping_rem (a b : Word) : Option Word :=
  if b = 0 then none else some (a % b)

/-- `U256::from_be_slice` on at most 32 bytes. -/
def u256_from_be_slice (bytes : List Nat) : Word :=
  bytes.foldl (fun acc b => acc * 256 + b) 0

/-! ## Execution context (src/context.rs) -/

structure Context where
  stack : Stack
  memory : Memory
  pc : Nat
  caller : Addr
  origin : Addr
  contract : Addr
  code : List Nat
  call_data : List Nat
  return_data : List Nat
  value : Word
  depth : Nat
  deriving DecidableEq, Repr

/-- `Context::new`. -/
def Context.new : Context :=
  { stack := Stack.new, memory := Memory.new, pc := 0, caller := 0, origin := 0,
    contract := 0, code := [], call_data := [], return_data := [], value := 0,
    depth := 0 }

/-- Result of one instruction handler: `none` is a panic; otherwise the mutated
state and context, together with `none` for `Ok(())` or the returned error.  The
mutations a handler made before returning `Err` are kept, as through the source's
`&mut` references. -/
abbrev InstResult := Option (InMemoryStateDB × Context × Option EVMError)

/-! ## Instruction handlers (src/instructions.rs) -/

namespace Inst

/-- `stop`. -/
def stop (db : InMemoryStateDB) (ctx : Context) : InstResult :=
  some (db, ctx, some .stop)

/-- `add`: wrapping addition. -/
def add (db : InMemoryStateDB) (ctx : Context) : InstResult :=
  match ctx.stack.pop with
  | none => none
  | some (a, s1) =>
    match s1.pop with
    | none => none
    | some (b, s2) =>
      some (db, { ctx with stack := s2.push ((a + b) % wordSize) }, none)

/-- `div`: `a.wrapping_div(b)` — panics when `b = 0`. -/
def div (db : InMemoryStateDB) (ctx : Context) : InstResult :=
  match ctx.stack.pop with
  | none => none
  | some (a, s1) =>
    match s1.pop with
    | none => none
    | some (b, s2) =>
      match wrapping_div a b with
      | none => none
      | some q => some (db, { ctx with stack := s2.push q }, none)

/-- `sign_div`: `i256_div(a, b)`. -/
def sign_div (db : InMemoryStateDB) (ctx : Context) : InstResult :=
  match ctx.stack.pop with
  | none => none
  | some (a, s1) =>
    match s1.pop with
    | none => none
    | some (b, s2) =>
      some (db, { ctx with stack := s2.push (i256_div a b) }, none)

/-- `modulo`: `a.wrapping_rem(b)` — panics when `b = 0`. -/
def modulo (db : InMemoryStateDB) (ctx : Context) : InstResult :=
  match ctx.stack.pop with
  | none => none
  | some (a, s1) =>
    match s1.pop with
    | none => none
    | some (b, s2) =>
      match wrapping_rem a b with
      | none => none
      | some r => some (db, { ctx with stack := s2.push r }, none)

/-- `sign_modulo`: `i256_mod(a, b)`. -/
def sign_modulo (db : InMemoryStateDB) (ctx : Context) : InstResult :=
  match ctx.stack.pop with
  | none => none
  | some (a, s1) =>
    match s1.pop with
    | none => none
    | some (b, s2) =>
      some (db, { ctx with stack := s2.push (i256_mod a b) }, none)

/-- `pop`. -/
def pop (db : InMemoryStateDB) (ctx : Context) : InstResult :=
  match ctx.stack.pop with
  | none => none
  | some (_, s1) => some (db, { ctx with stack := s1 }, none)

/-- `sload`. -/
def sload (db : InMemoryStateDB) (ctx : Context) : InstResult :=
  match ctx.stack.pop with
  | none => none
  | some (key, s1) =>
    some (db, { ctx with stack := s1.push (db.get_state ctx.contract key) }, none)

/-- `sstore`. -/
def sstore (db : InMemoryStateDB) (ctx : Context) : InstResult :=
  match ctx.stack.pop with
  | none => none
  | some (key, s1) =>
    match s1.pop with
    | none => none
    | some (value, s2) =>
      some (db.set_state ctx.contract key value, { ctx with stack := s2 }, none)

/-- `jump`: pops the target, sets `pc` to it, then inspects `code[pc + 1]` — the
byte after the target — for `JUMPDEST` (panicking when that index is out of
bounds). -/
def jump (db : InMemoryStateDB) (ctx : Context) : InstResult :=
  match ctx.stack.pop with
  | none => none
  | some (counter, s1) =>
    let pc' := u256_to_usize counter
    let ctx1 := { ctx with stack := s1, pc := pc' }
    match ctx1.code.get? (pc' + 1) with
    | none => none
    | some next_code =>
      if next_code ≠ JUMPDEST then some (db, ctx1, some .invalidJumpDestination)
      else some (db, ctx1, none)

/-- `jump_dest`: a no-op. -/
def jump_dest (db : InMemoryStateDB) (ctx : Context) : InstResult :=
  some (db, ctx, none)

/-- `mcopy`: pops `(dst, src, size)` and calls `Memory::copy`. -/
def mcopy (db : InMemoryStateDB) (ctx : Context) : InstResult :=
  match ctx.stack.popN 3 with
  | some ([dst_offset, offset, size], s1) =>
    match ctx.memory.copy (u256_to_usize dst_offset) (u256_to_usize offset)
        (u256_to_usize size) with
    | none => none
    | some m' => some (db, { ctx with stack := s1, memory := m' }, none)
  | _ => none

/-- `push0`. -/
def push0 (db : InMemoryStateDB) (ctx : Context) : InstResult :=
  some (db, { ctx with stack := ctx.stack.push 0 }, none)

/-- `push::<N>`: reads `code[pc + 1 .. pc + N + 1]` (panicking when the slice
runs past the end of the code) and pushes its big-endian value. -/
def push (n : Nat) (db : InMemoryStateDB) (ctx : Context) : InstResult :=
  if ctx.pc + n + 1 ≤ ctx.code.length then
    some (db,
      { ctx with stack :=
          ctx.stack.push (u256_from_be_slice ((ctx.code.drop (ctx.pc + 1)).take n)) },
      none)
  else none

/-- `revert`: pops `(offset, size)`, stores the read bytes as return data and
signals `Revert`. -/
def revert (db : InMemoryStateDB) (ctx : Context) : InstResult :=
  match ctx.stack.pop with
  | none => none
  | some (offset, s1) =>
    match s1.pop with
    | none => none
    | some (size, s2) =>
      let rd := ctx.memory.read (u256_to_usize offset) (u256_to_usize size)
      some (db, { ctx with stack := s2, memory := rd.2, return_data := rd.1 },
        some .revert)

end Inst

/-! ## Claim C4 -/

/-- C4 fails on the code for the unsigned cases: `div` and `modulo` use ruint's
`wrapping_div` / `wrapping_rem`, which panic on a zero divisor, so DIV(1,0) and
MOD(1,0) panic instead of pushing 0.  The signed helpers (modelled from the
spec's description of the missing `i256` module) do yield 0 on a zero divisor. -/
theorem c4_div_mod_by_zero :
    Inst.div InMemoryStateDB.new { Context.new with stack := ⟨[1, 0]⟩ } = none ∧
    Inst.modulo InMemoryStateDB.new { Context.new with stack := ⟨[1, 0]⟩ } = none ∧
    (∀ a : Word, i256_div a 0 = 0 ∧ i256_mod a 0 = 0) :=
  ⟨rfl, rfl, fun _ => ⟨rfl, rfl⟩⟩

/-! ## Claim C5 -/

/-- C5 counterexample: jumping to target 0 of `[JUMPDEST, STOP]` — where
`code[0] = JUMPDEST` — fails with `InvalidJumpDestination`, because the handler
inspects `code[t + 1]`, not `code[t]`. -/
theorem c5_counterexample :
    Inst.jump InMemoryStateDB.new
        { Context.new with stack := ⟨[0]⟩, code := [JUMPDEST, STOP] } =
      some (InMemoryStateDB.new,
        { Context.new with stack := ⟨[]⟩, code := [JUMPDEST, STOP], pc := 0 },
        some .invalidJumpDestination) := rfl

/-- C5 amended: JUMP pops `t`, sets `pc := t`, and requires `code[t + 1]` — the
byte after the target, which is where execution resumes after the post-handler
increment — to be JUMPDEST; otherwise it errors with `InvalidJumpDestination`
(and it panics when `t + 1` is out of bounds). -/
theorem c5_jump_checks_byte_after_target (db : InMemoryStateDB) (ctx : Context)
    (t : Word) (rest : List Word) (b : Nat)
    (hstk : ctx.stack.items = t :: rest)
    (ht : t < 2 ^ 64)
    (hb : ctx.code.get? (t + 1) = some b) :
    Inst.jump db ctx =
      some (db, { ctx with stack := ⟨rest⟩, pc := t },
        if b = JUMPDEST then none else some .invalidJumpDestination) := by
  unfold Inst.jump Stack.pop
  simp only [hstk, u256_to_usize, if_pos ht, hb]
  by_cases hbj : b = JUMPDEST <;> simp [hbj]

/-- C5 witness: jumping to target 0 of `[STOP, JUMPDEST]` — `code[1] = JUMPDEST`
— succeeds with `pc = 0`. -/
theorem c5_witness :
    Inst.jump InMemoryStateDB.new
        { Context.new with stack := ⟨[0]⟩, code := [STOP, JUMPDEST] } =
      some (InMemoryStateDB.new,
        { Context.new with stack := ⟨[]⟩, code := [STOP, JUMPDEST], pc := 0 },
        none) := by
  have h := c5_jump_checks_byte_after_target InMemoryStateDB.new
    { Context.new with stack := ⟨[0]⟩, code := [STOP, JUMPDEST] }
    0 [] JUMPDEST rfl (by decide) rfl
  simpa using h

/-! ## Claim C8 -/

/-- C8 fails on the code: `Memory::copy` indexes
`dst_slice[dst_offset .. dst_offset + size]` into the left half of
`split_at_mut(dst_offset)`, whose length is only `dst_offset`, so every copy with
`size > 0` panics — overlapping or not — instead of performing a read-then-write
copy. -/
theorem c8_memory_copy_panics :
    Memory.copy ⟨[]⟩ 0 0 1 = none ∧
    Memory.copy ⟨[1, 2, 3, 4]⟩ 1 0 2 = none ∧
    Memory.copy ⟨[5, 6, 7, 8]⟩ 2 0 1 = none :=
  ⟨rfl, rfl, rfl⟩

/-! ## Claim C9 -/

/-- C9 counterexample: `push` on a stack already holding 1024 words succeeds and
the length becomes 1025 — there is no overflow check. -/
theorem c9_counterexample :
    (Stack.push ⟨List.replicate 1024 0⟩ 0).items.length = 1025 := by
  simp [Stack.push]

/-- C9 amended: `pop` on an empty stack is a fatal error (an `unwrap` panic), but
`push` performs no depth check: it always grows the stack by one, so the length
is not bounded by 1024. -/
theorem c9_pop_underflow_push_unchecked :
    Stack.pop ⟨[]⟩ = none ∧
    (∀ (s : Stack) (v : Word), (s.push v).items.length = s.items.length + 1) :=
  ⟨rfl, fun _ _ => rfl⟩

/-! ## Interpreter (src/vm.rs)

The dispatch loop and the CALL/STATICCALL frame handlers, with explicit fuel
bounding loop iterations and call depth.  The opcode table is restricted to the
embedded subset; executing an opcode outside it is left unmodelled (`none`). -/

/-- The handler table of src/opcode_table.rs, restricted to the embedded
opcodes. -/
def instTable (op : Nat) : Option (InMemoryStateDB → Context → InstResult) :=
  if op = STOP then some Inst.stop
  else if op = ADD then some Inst.add
  else if op = DIV then some Inst.div
  else if op = SDIV then some Inst.sign_div
  else if op = MOD then some Inst.modulo
  else if op = SMOD then some Inst.sign_modulo
  else if op = POP then some Inst.pop
  else if op = SLOAD then some Inst.sload
  else if op = SSTORE then some Inst.sstore
  else if op = JUMP then some Inst.jump
  else if op = JUMPDEST then some Inst.jump_dest
  else if op = MCOPY then some Inst.mcopy
  else if op = PUSH0 then some Inst.push0
  else if PUSH1 ≤ op ∧ op ≤ PUSH32 then some (Inst.push (op - PUSH1 + 1))
  else if op = REVERT then some Inst.revert
  else none

/-- `popN 7` evaluated on an explicitly shaped stack. -/
theorem Stack.popN_seven (g t v ao az ro rz : Word) (rest : List Word) :
    Stack.popN 7 ⟨g :: t :: v :: ao :: az :: ro :: rz :: rest⟩ =
      some ([g, t, v, ao, az, ro, rz], ⟨rest⟩) := rfl

/-- `popN 6` evaluated on an explicitly shaped stack. -/
theorem Stack.popN_six (g t ao az ro rz : Word) (rest : List Word) :
    Stack.popN 6 ⟨g :: t :: ao :: az :: ro :: rz :: rest⟩ =
      some ([g, t, ao, az, ro, rz], ⟨rest⟩) := rfl

namespace Interpreter

/-- The return-data splice ending every call-family handler: write the child's
return data (truncated to `ret_size`) into the parent memory and assign the
parent's `return_data`. -/
def retSplice (db : InMemoryStateDB) (ctx child : Context)
    (ret_offset ret_size : Word) : InstResult :=
  match ctx.memory.write_with_size (u256_to_usize ret_offset)
      (u256_to_usize ret_size) child.return_data with
  | none => none
  | some m2 =>
    some (db, { ctx with memory := m2, return_data := child.return_data }, none)

/-- The tail of `Interpreter::call` both value paths fall through to: `prepare`,
run the child, push 1 and `commit` on success or push 0 (without commit) on
error, then splice the return data. -/
def callFinish (runChild : InMemoryStateDB → Context → InstResult)
    (db : InMemoryStateDB) (ctx1 child : Context)
    (ret_offset ret_size : Word) : InstResult :=
  match runChild db.prepare child with
  | none => none
  | some (db1, child1, none) =>
    retSplice db1.commit { ctx1 with stack := ctx1.stack.push 1 } child1
      ret_offset ret_size
  | some (db1, child1, some _) =>
    retSplice db1 { ctx1 with stack := ctx1.stack.push 0 } child1
      ret_offset ret_size

/-- `Interpreter::call`, parameterised by the function that runs the child frame
(instantiated below with `run_with_ctx` at one less fuel). -/
def callWith (runChild : InMemoryStateDB → Context → InstResult)
    (db : InMemoryStateDB) (ctx : Context) : InstResult :=
  match ctx.stack.popN 7 with
  | some ([_gas, to_, value, args_offset, args_size, ret_offset, ret_size], s1) =>
    let rd := ctx.memory.read (u256_to_usize args_offset) (u256_to_usize args_size)
    let ctx1 := { ctx with stack := s1, memory := rd.2 }
    let child := { Context.new with
      contract := u256_to_address to_,
      code := db.get_code (u256_to_address to_),
      call_data := rd.1,
      value := value,
      caller := ctx.origin,
      depth := ctx.depth + 1 }
    if value ≠ 0 then
      match db.transfer ctx.caller child.contract value with
      | .ok db1 => callFinish runChild db1 ctx1 child ret_offset ret_size
      | .error .insufficientBalance =>
          some (db, { ctx1 with stack := ctx1.stack.push 0 }, none)
      | .error e => some (db, ctx1, some e)
    else callFinish runChild db ctx1 child ret_offset ret_size
  | _ => none

/-- The child frame `Interpreter::static_call` constructs (note: the child's
`origin` is left at zero and no value is set). -/
def staticChild (db : InMemoryStateDB) (ctx : Context)
    (to_ args_offset args_size : Word) : Context :=
  { Context.new with
    contract := u256_to_address to_,
    code := db.get_code (u256_to_address to_),
    call_data := (ctx.memory.read (u256_to_usize args_offset)
      (u256_to_usize args_size)).1,
    caller := ctx.origin,
    depth := ctx.depth + 1 }

/-- `Interpreter::static_call`, parameterised like `callWith`: `prepare`, run the
child, push 1 on success or 0 on error — with no `commit` on either path — then
splice the return data. -/
def static_callWith (runChild : InMemoryStateDB → Context → InstResult)
    (db : InMemoryStateDB) (ctx : Context) : InstResult :=
  match ctx.stack.popN 6 with
  | some ([_gas, to_, args_offset, args_size, ret_offset, ret_size], s1) =>
    let rd := ctx.memory.read (u256_to_usize args_offset) (u256_to_usize args_size)
    let ctx1 := { ctx with stack := s1, memory := rd.2 }
    match runChild db.prepare (staticChild db ctx to_ args_offset args_size) with
    | none => none
    | some (db1, child1, none) =>
      retSplice db1 { ctx1 with stack := ctx1.stack.push 1 } child1
        ret_offset ret_size
    | some (db1, child1, some _) =>
      retSplice db1 { ctx1 with stack := ctx1.stack.push 0 } child1
        ret_offset ret_size
  | _ => none

/-- One iteration of `run_with_ctx`'s loop: fetch the opcode at `pc` (panicking
past the end of the code), dispatch it — CALL/STATICCALL to their frame handlers,
everything else through the table — then on `Ok` advance `pc` by the opcode size
and either stop at end-of-code or continue via `recur`; `Err(Stop)` leaves the
loop as success; any other error is returned from the frame. -/
def stepBody (recur : InMemoryStateDB → Context → InstResult)
    (db : InMemoryStateDB) (ctx : Context) : InstResult :=
  match ctx.code.get? ctx.pc with
  | none => none
  | some op =>
    let res :=
      if op = CALL then callWith recur db ctx
      else if op = STATICCALL then static_callWith recur db ctx
      else
        match instTable op with
        | some inst_fn => inst_fn db ctx
        | none => none
    match res with
    | none => none
    | some (db1, ctx1, some EVMError.stop) => some (db1, ctx1, none)
    | some (db1, ctx1, some e) => some (db1, ctx1, some e)
    | some (db1, ctx1, none) =>
      let ctx2 := { ctx1 with pc := ctx1.pc + get_opcode_size op }
      if ctx2.code.length ≤ ctx2.pc then some (db1, ctx2, none)
      else recur db1 ctx2

/-- `Interpreter::run_with_ctx` with explicit fuel (`none` also covers fuel
exhaustion). -/
def run_with_ctx : Nat → InMemoryStateDB → Context → InstResult
  | 0 => fun _ _ => none
  | fuel + 1 => stepBody (run_with_ctx fuel)

theorem run_with_ctx_succ (fuel : Nat) :
    run_with_ctx (fuel + 1) = stepBody (run_with_ctx fuel) := rfl

/-- `Interpreter::call` at a given fuel. -/
def call (fuel : Nat) : InMemoryStateDB → Context → InstResult :=
  callWith (run_with_ctx fuel)

/-- `Interpreter::static_call` at a given fuel. -/
def static_call (fuel : Nat) : InMemoryStateDB → Context → InstResult :=
  static_callWith (run_with_ctx fuel)

end Interpreter

/-! ## Claim C3 -/

/-- C3: a CALL whose non-zero value transfer fails with `InsufficientBalance`
pushes 0 onto the parent's stack and returns success, leaving the state untouched
(first conjunct); outside the CALL conversion, a handler error other than `Stop`
is propagated out of the frame by the dispatch loop (second conjunct). -/
theorem c3_call_converts_insufficient_balance :
    (∀ (fuel : Nat) (db : InMemoryStateDB) (ctx : Context)
        (gas to_ value args_offset args_size ret_offset ret_size : Word)
        (rest : List Word),
      ctx.stack.items = gas :: to_ :: value :: args_offset :: args_size ::
          ret_offset :: ret_size :: rest →
      value ≠ 0 →
      db.transfer ctx.caller (u256_to_address to_) value =
        .error .insufficientBalance →
      Interpreter.call fuel db ctx =
        some (db,
          { ctx with
            stack := ⟨0 :: rest⟩,
            memory := (ctx.memory.read (u256_to_usize args_offset)
              (u256_to_usize args_size)).2 },
          none)) ∧
    (∀ (fuel : Nat) (db db1 : InMemoryStateDB) (ctx ctx1 : Context)
        (op : Nat) (f : InMemoryStateDB → Context → InstResult) (e : EVMError),
      ctx.code.get? ctx.pc = some op →
      op ≠ CALL → op ≠ STATICCALL →
      instTable op = some f →
      f db ctx = some (db1, ctx1, some e) →
      e ≠ .stop →
      Interpreter.run_with_ctx (fuel + 1) db ctx = some (db1, ctx1, some e)) := by
  constructor
  · intro fuel db ctx gas to_ value ao az ro rz rest hstk hval htr
    obtain ⟨⟨items⟩, mem, pc, cal, org, con, cod, cd, rd, val, dep⟩ := ctx
    simp only [] at hstk
    subst hstk
    simp only [Interpreter.call, Interpreter.callWith, Stack.popN_seven]
    rw [if_pos hval]
    simp only [] at htr
    rw [htr]
    rfl
  · intro fuel db db1 ctx ctx1 op f e hop hc hsc hf happ hne
    rw [Interpreter.run_with_ctx_succ]
    cases e
    case stop => exact absurd rfl hne
    all_goals
      simp only [Interpreter.stepBody, hop, if_neg hc, if_neg hsc, hf, happ]

/-- C3 witness: with an empty state (so the caller cannot fund a transfer of 5),
CALL pushes 0 and succeeds; and a REVERT handler error is propagated out of the
frame by the loop. -/
theorem c3_witness :
    Interpreter.call 0 InMemoryStateDB.new
        { Context.new with stack := ⟨[0, 2, 5, 0, 0, 0, 0]⟩, caller := 1 } =
      some (InMemoryStateDB.new,
        { Context.new with stack := ⟨[0]⟩, caller := 1 }, none) ∧
    Interpreter.run_with_ctx 1 InMemoryStateDB.new
        { Context.new with stack := ⟨[0, 0]⟩, code := [REVERT] } =
      some (InMemoryStateDB.new,
        { Context.new with stack := ⟨[]⟩, code := [REVERT] }, some .revert) := by
  constructor
  · have h := c3_call_converts_insufficient_balance.1 0 InMemoryStateDB.new
      { Context.new with stack := ⟨[0, 2, 5, 0, 0, 0, 0]⟩, caller := 1 }
      0 2 5 0 0 0 0 [] rfl (by decide) rfl
    simpa using h
  · have h := c3_call_converts_insufficient_balance.2 0 InMemoryStateDB.new
      InMemoryStateDB.new
      { Context.new with stack := ⟨[0, 0]⟩, code := [REVERT] }
      { Context.new with stack := ⟨[]⟩, code := [REVERT] }
      REVERT Inst.revert .revert rfl (by decide) (by decide) rfl rfl (by decide)
    exact h

/-! ## Claim C10 -/

/-- C10: when the static child's run succeeds, `static_call` pushes 1 onto the
parent stack and its resulting state is exactly the child-run state — `commit` is
applied on neither path (first conjunct); `set_state` writes only the dirty
overlay, never the committed map (second conjunct); and after a `prepare`,
`get_state` reads the committed map, so the static child's storage writes are
discarded by the next `prepare` rather than folded (third conjunct). -/
theorem c10_static_call_never_commits :
    (∀ (fuel : Nat) (db db1 : InMemoryStateDB) (ctx child1 : Context)
        (gas to_ args_offset args_size ret_offset ret_size : Word)
        (rest : List Word),
      ctx.stack.items = gas :: to_ :: args_offset :: args_size ::
          ret_offset :: ret_size :: rest →
      Interpreter.run_with_ctx fuel db.prepare
          (Interpreter.staticChild db ctx to_ args_offset args_size) =
        some (db1, child1, none) →
      u256_to_usize ret_size ≤ child1.return_data.length →
      (Interpreter.static_call fuel db ctx).map
          (fun r => (r.1, r.2.1.stack.items, r.2.2)) =
        some (db1, 1 :: rest, none)) ∧
    (∀ (db : InMemoryStateDB) (a : Addr) (k v : Word),
      (db.set_state a k v).storage = db.storage) ∧
    (∀ (db : InMemoryStateDB) (a : Addr) (k : Word),
      (db.prepare).get_state a k = (mapLookup (a, k) db.storage).getD 0) := by
  refine ⟨?_, fun db a k v => rfl, fun db a k => ?_⟩
  · intro fuel db db1 ctx child1 gas to_ ao az ro rz rest hstk hrun hret
    obtain ⟨⟨items⟩, mem, pc, cal, org, con, cod, cd, rd, val, dep⟩ := ctx
    simp only [] at hstk
    subst hstk
    simp only [Interpreter.static_call, Interpreter.static_callWith,
      Stack.popN_six]
    rw [hrun]
    simp only [Interpreter.retSplice, Memory.write_with_size]
    rw [if_pos hret]
    rfl
  · simp only [InMemoryStateDB.prepare, InMemoryStateDB.get_state, mapLookup]
    cases mapLookup (a, k) db.storage <;> simp

/-- The committed state for C10's witness: address 2 holds the code
`PUSH1 5; PUSH1 1; SSTORE; STOP`. -/
def dbC10 : InMemoryStateDB :=
  { InMemoryStateDB.new with
    objects := [(2, { balance := 0, nonce := 0, code := [0x60, 5, 0x60, 1, 0x55, 0x00],
                      code_hash := 0, address := 2 })] }

/-- The parent frame for C10's witness. -/
def ctxC10 : Context :=
  { Context.new with
    stack := ⟨[0, 2, 0, 0, 0, 0]⟩
    origin := 1
    contract := 9
    code := [0xFA] }

/-- The final child frame for C10's witness. -/
def childC10 : Context :=
  { Context.new with
    pc := 5
    caller := 1
    contract := 2
    code := [0x60, 5, 0x60, 1, 0x55, 0x00]
    depth := 1 }

set_option maxHeartbeats 4000000 in
/-- C10 witness: running STATICCALL into address 2 — whose code stores 5 at slot 1
and stops — pushes 1 and leaves the write in the dirty overlay only; a `set_state`
and a `prepare` instance close the other two conjuncts. -/
theorem c10_witness :
    (Interpreter.static_call 9 dbC10 ctxC10).map
        (fun r => (r.1, r.2.1.stack.items, r.2.2)) =
      some ({ dbC10 with dirty_storage := [((2, 1), 5)] }, [1], none) ∧
    (InMemoryStateDB.new.set_state 1 2 3).storage = InMemoryStateDB.new.storage ∧
    (InMemoryStateDB.new.prepare).get_state 1 2 =
      (mapLookup (1, 2) InMemoryStateDB.new.storage).getD 0 := by
  refine ⟨?_, c10_static_call_never_commits.2.1 InMemoryStateDB.new 1 2 3,
    c10_static_call_never_commits.2.2 InMemoryStateDB.new 1 2⟩
  have h := c10_static_call_never_commits.1 9 dbC10
    { dbC10 with dirty_storage := [((2, 1), 5)] } ctxC10 childC10
    0 2 0 0 0 0 [] rfl (by rfl) (by decide)
  exact h

/-! ## Assembler (src/asm.rs)

Lines are modelled as `List Char`. -/

/-- A hexadecimal digit's value (`U256::from_str_radix(_, 16)` accepts both
cases). -/
def hexDigit? (c : Char) : Option Nat :=
  if '0' ≤ c ∧ c ≤ '9' then some (c.toNat - 48)
  else if 'a' ≤ c ∧ c ≤ 'f' then some (c.toNat - 87)
  else if 'A' ≤ c ∧ c ≤ 'F' then some (c.toNat - 55)
  else none

/-- `U256::from_str_radix(s, 16)`: rejects empty digit strings, non-hex
characters and values that do not fit in 256 bits. -/
def from_str_radix16 (cs : List Char) : Option Nat :=
  if cs = [] then none
  else
    match cs.foldl
        (fun acc c =>
          match acc, hexDigit? c with
          | some a, some d => some (a * 16 + d)
          | _, _ => none)
        (some 0) with
    | none => none
    | some v => if v < wordSize then some v else none

/-- Big-endian bytes of `n` without leading zeros, by fuelled division; 32
rounds cover every value below `2 ^ 256`, the range hex parsing admits
(`U256::to_be_bytes_trimmed_vec`, which is empty for zero). -/
def beBytesFuel : Nat → Nat → List Nat
  | 0, _ => []
  | fuel + 1, n => if n = 0 then [] else beBytesFuel fuel (n / 256) ++ [n % 256]

/-- `U256::to_be_bytes_trimmed_vec`. -/
def to_be_bytes_trimmed (n : Nat) : List Nat := beBytesFuel 32 n

/-- `str::split_whitespace` (no empty tokens), on an explicit accumulator. -/
def splitWsAux : List Char → List Char → List (List Char)
  | [], acc => if acc = [] then [] else [acc.reverse]
  | c :: t, acc =>
    if c.isWhitespace then
      if acc = [] then splitWsAux t [] else acc.reverse :: splitWsAux t []
    else splitWsAux t (c :: acc)

/-- `str::split_whitespace`. -/
def split_whitespace (cs : List Char) : List (List Char) := splitWsAux cs []

/-- Decimal digits of `n` (fuelled; two digits suffice for PUSH mnemonics). -/
def decDigits : Nat → Nat → List Char
  | 0, _ => []
  | fuel + 1, n =>
    if n < 10 then [Char.ofNat (48 + n)]
    else decDigits fuel (n / 10) ++ [Char.ofNat (48 + n % 10)]

/-- The mnemonic `PUSHk`. -/
def pushMnemonic (k : Nat) : List Char :=
  'P' :: 'U' :: 'S' :: 'H' :: decDigits 3 k

/-- The assembler's mnemonic → opcode-byte map, built in `Assembler::new` from
the opcode table's names; restricted here to the PUSH family, which is all claim
C7 exercises. -/
def asmTable : List (List Char × Nat) :=
  (List.range 32).map (fun i => (pushMnemonic (i + 1), PUSH1 + i))

/-- `Assembler::asm_opcode` on one line: split on whitespace, look the mnemonic
up, and for PUSHk parse the single hex operand (optional `0x`), trim it to
big-endian bytes (`[0]` for zero), reject more than `k` bytes with
`InvalidAsmToken` — and then slice `&operand_bytes[0 .. k]`, which panics
whenever the trimmed operand is shorter than `k` bytes. -/
def Assembler.asm_opcode (line : List Char) : Option (Except EVMError (List Nat)) :=
  match split_whitespace line with
  | [] => some (.error (.invalidAsmToken line))
  | opcode_token :: operands =>
    match mapLookup opcode_token asmTable with
    | none => some (.error (.invalidAsmToken line))
    | some opcode_byte =>
      if PUSH1 ≤ opcode_byte ∧ opcode_byte ≤ PUSH32 then
        match operands with
        | [] => some (.error (.invalidAsmToken line))
        | operand :: _ =>
          let digits :=
            match operand with
            | '0' :: 'x' :: rest => rest
            | _ => operand
          match from_str_radix16 digits with
          | none => some (.error (.invalidAsmToken line))
          | some operand_u256 =>
            let operand_bytes :=
              if operand_u256 = 0 then [0] else to_be_bytes_trimmed operand_u256
            let operand_size := opcode_byte - PUSH1 + 1
            if operand_size < operand_bytes.length then
              some (.error (.invalidAsmToken line))
            else if operand_bytes.length < operand_size then none
            else some (.ok (opcode_byte :: operand_bytes))
      else some (.ok [opcode_byte])

/-! ## Claim C7 -/

/-- C7 fails on the code for operands shorter than `k` bytes: the assembler
emits exactly `[opcode, k bytes]` when the trimmed operand has exactly `k` bytes
(`PUSH2 0x1234`, and `PUSH1 0` via the zero special case), and rejects operands
longer than `k` bytes with `InvalidAsmToken` (`PUSH1 0x1234`) — but an operand
whose trimmed representation is shorter than `k` bytes (`PUSH2 0x12`) panics on
the slice `&operand_bytes[0 .. k]` instead of being left-zero-padded. -/
theorem c7_asm_push_operand_width :
    Assembler.asm_opcode ("PUSH2 0x1234".toList) = some (.ok [0x61, 0x12, 0x34]) ∧
    Assembler.asm_opcode ("PUSH1 0".toList) = some (.ok [0x60, 0x00]) ∧
    Assembler.asm_opcode ("PUSH1 0x1234".toList) =
      some (.error (.invalidAsmToken ("PUSH1 0x1234".toList))) ∧
    Assembler.asm_opcode ("PUSH2 0x12".toList) = none :=
  ⟨rfl, rfl, rfl, rfl⟩

end EvmRs
